import Mathlib

/-!
Verification development for the `texas` audio player.

The definitions below are a shallow embedding of the repository's C++
sources:

* `src/unnamed/part_000`  — `AudioDecoder` (bounded frame queue, decode loop);
* `src/unnamed/part_003`  — `AudioPlayer` (state machine, playback queue,
  SDL pull callback `fillAudioBuffer`, CAS counter `updateBufferSize`);
* `src/src/audio_player.cpp` — the variant whose `processDecodedFrame`
  interleaves planar frames by hand;
* `src/include/audio_decoder.h` — declarations of the second decoder
  generation (its `seek` body is absent from the sources and is modelled
  from the specification where needed).

Machine integers are modelled as `Nat`/`Int` with explicit `% 2 ^ 64`
wraparound where the C++ type (`size_t`) wraps.  Blocking operations are
modelled by their completion semantics: each function takes the shared
state as it is observed at the instant the call's critical section
completes, and returns `none` when the wait predicate does not allow the
call to complete in that state (the thread is still blocked).
-/

namespace Texas

/-- Decoded frames are opaque handles; we model them by identifiers. -/
abbrev AVFrame := Nat

/-- A PCM byte chunk of the playback queue (`std::vector<uint8_t>`). -/
abbrev Chunk := List Nat

/-- Configuration of `AudioDecoder` (`src/unnamed/part_004`, `AudioDecoderConfig`). -/
structure AudioDecoderConfig where
  maxQueueSize : Nat := 100
  preBufferFrames : Nat := 10
  dropFramesWhenFull : Bool := true
deriving DecidableEq, Repr

/-- Embedding of `AudioDecoder::pushFrame` (`src/unnamed/part_000`, lines 123-144).
`isDecoding` and `q` are the shared state observed when the call completes its
critical section; result `none` means the call is still blocked inside
`queueNotFull.wait` (possible only while the queue is full, the drop policy is
off, and `isDecoding` still holds, because the wait predicate is
`size < maxQueueSize || !isDecoding`).  The returned `Bool` is the C++ return
value; when the frame is not inserted the source frees it. -/
def pushFrame (cfg : AudioDecoderConfig) (isDecoding : Bool) (f : AVFrame)
    (q : List AVFrame) : Option (List AVFrame × Bool) :=
  if cfg.maxQueueSize ≤ q.length then
    if cfg.dropFramesWhenFull then some (q, false)
    else if isDecoding then none
    else some (q, false)
  else if isDecoding then some (q ++ [f], true)
  else some (q, false)

/-- Embedding of `AudioDecoder::getAudioFrame` (`src/unnamed/part_000`,
lines 146-170).  For `timeout_ms < 0` the call completes only when the wait
predicate `!queue.empty() || !isDecoding` holds; for `timeout_ms ≥ 0` it may
additionally complete because the timeout expired (`expired`).  On completion
the call returns `false` (here `none` as the popped frame) exactly when the
queue is empty, otherwise it pops and returns the front frame. -/
def getAudioFrame (timeout_ms : Int) (isDecoding expired : Bool)
    (q : List AVFrame) : Option (List AVFrame × Option AVFrame) :=
  if timeout_ms < 0 then
    match q with
    | [] => if isDecoding then none else some ([], none)
    | f :: rest => some (rest, some f)
  else
    match q with
    | [] => if isDecoding && !expired then none else some ([], none)
    | f :: rest => some (rest, some f)

/-- State of the decoder object that the player-level operations touch. -/
structure DecoderState where
  frameQueue : List AVFrame
  isDecoding : Bool
deriving DecidableEq, Repr

/-- Embedding of `AudioDecoder::stop` (`src/unnamed/part_000`, lines 112-121):
clears `isDecoding`, wakes both condition variables and joins the thread; the
frame queue is left untouched. -/
def decoderStop (d : DecoderState) : DecoderState :=
  if d.isDecoding then { d with isDecoding := false } else d

/-- Embedding of `AudioDecoder::flush` (`src/unnamed/part_000`, lines 242-248):
frees and discards every queued frame. -/
def decoderFlush (d : DecoderState) : DecoderState :=
  { d with frameQueue := [] }

/-- Modelled from the spec: the body of `AudioDecoder::seek` is not in the
sources (it is only declared in `src/include/audio_decoder.h` and called from
`AudioPlayer::seek`).  Per spec sections 4.1 and 4.5 it repositions the
underlying stream and flushes the decoder so stale frames are not emitted, and
the queue is left flushed whether or not the reposition succeeds.  Whether the
underlying `av_seek_frame` succeeds is an external outcome, passed in as `ok`;
the flush reuses the source-backed `decoderFlush`. -/
def decoderSeek (ok : Bool) (d : DecoderState) : DecoderState × Bool :=
  (decoderFlush d, ok)

/-! Section: AudioPlayer (`src/unnamed/part_003`) -/

/-- Capacity of the playback queue (`audio_player.h`, `MAX_QUEUE_SIZE`). -/
def MAX_QUEUE_SIZE : Nat := 50

/-- Low-water mark of the playback queue (`audio_player.h`, `LOW_WATER_MARK`). -/
def LOW_WATER_MARK : Nat := 10

/-- Wraparound of `size_t` arithmetic: the representative in `[0, 2^64)` of an
integer, as C++ unsigned 64-bit addition produces. -/
def wrap64 (x : Int) : Nat := (x.emod (2 ^ 64)).toNat

/-- A single atomic `fetch_add` of `delta` on a `size_t` counter holding `v`. -/
def fetchAdd (v : Nat) (delta : Int) : Nat := wrap64 ((v : Int) + delta)

/-- Embedding of `AudioPlayer::updateBufferSize` (`src/unnamed/part_003`,
lines 403-407): `current = load(); while (!compare_exchange_weak(current,
current + delta));`.  On CAS failure `current` is refreshed with the observed
value and the attempt is retried.  `interference` lists the counter values the
loop observes at successive failed attempts; once it is exhausted no further
concurrent modification happens and the CAS succeeds.  `size_t + int64_t`
wraps modulo `2 ^ 64`. -/
def updateBufferSize (delta : Int) : Nat → List Nat → Nat
  | expected, [] => wrap64 ((expected : Int) + delta)
  | expected, a :: rest =>
    if a = expected then wrap64 ((expected : Int) + delta)
    else updateBufferSize delta a rest

/-- Decode the 16-bit little-endian sample stored as two bytes (low + 256*high)
into a signed value, as SDL's `AUDIO_S16SYS` mixing reads it. -/
def toInt16 (w : Nat) : Int :=
  if w % 65536 < 32768 then ((w % 65536 : Nat) : Int)
  else ((w % 65536 : Nat) : Int) - 65536

/-- Saturating clip to the signed 16-bit range applied by `SDL_MixAudioFormat`. -/
def clampS16 (x : Int) : Int := max (-32768) (min 32767 x)

/-- Re-encode a signed 16-bit sample as two little-endian bytes. -/
def encode16 (x : Int) : List Nat :=
  [(x.emod 65536).toNat % 256, (x.emod 65536).toNat / 256]

/-- Embedding of `SDL_MixAudioFormat(stream, data, AUDIO_S16SYS, copyLen,
volume)` for a destination region that is still all zero (the callback zeroes
`stream` first and each loop iteration mixes into a fresh region): every
complete 16-bit sample of the first `copyLen` source bytes is scaled by
`volume / 128` (C integer division truncating toward zero) and clipped; a
trailing odd byte is not mixed and stays zero. -/
def mixRegion (data : List Nat) (volume : Int) (copyLen : Nat) : List Nat :=
  ((List.range (copyLen / 2)).flatMap fun k =>
    let src := toInt16 (data.getD (2 * k) 0 + 256 * data.getD (2 * k + 1) 0)
    encode16 (clampS16 (Int.tdiv (src * volume) 128)))
  ++ (if copyLen % 2 = 1 then [0] else [])

/-- Embedding of the underrun-recovery branch of `AudioPlayer::fillAudioBuffer`
(`src/unnamed/part_003`, lines 373-377): `stream[i] = Uint8(data[i] * (float(i)
/ copyLen))`, a byte-wise linear ramp from silence up to the queued data.  The
float product truncated to `Uint8` is modelled by exact rational arithmetic
truncated to `Nat` (`data[i] * i / copyLen`); every concrete input evaluated in
this development makes the float computation exact, so the two agree there. -/
def fadeRegion (data : List Nat) (copyLen : Nat) : List Nat :=
  (List.range copyLen).map fun i => data.getD i 0 * i / copyLen

/-- Embedding of the `while (len > 0 && !audioQueue.empty())` loop of
`AudioPlayer::fillAudioBuffer` (`src/unnamed/part_003`, lines 368-393),
returning the bytes written to the `len` destination bytes (zero-filled by the
leading `SDL_memset` wherever the loop writes nothing), the remaining queue and
the buffered-size counter.  `noneCopied` is the running `totalCopied == 0`
test; `underrun0` is the flag value read by the branch condition.  Partial
chunks have their consumed prefix erased; fully consumed chunks are popped.
`updateBufferSize` is invoked with an empty interference trace because the
loop body runs inside the queue lock. -/
def fillLoop (volume : Int) (underrun0 : Bool) :
    List Chunk → Nat → Bool → Nat → List Nat × List Chunk × Nat
  | [], len, _, buffered => (List.replicate len 0, [], buffered)
  | data :: rest, len, noneCopied, buffered =>
    if len = 0 then ([], data :: rest, buffered)
    else
      let copyLen := min len data.length
      let region :=
        if underrun0 && noneCopied then fadeRegion data copyLen
        else mixRegion data volume copyLen
      if copyLen < data.length then
        (region, data.drop copyLen :: rest,
          updateBufferSize (-(copyLen : Int)) buffered [])
      else
        let buffered' := updateBufferSize (-(data.length : Int)) buffered []
        let next := fillLoop volume underrun0 rest (len - copyLen)
          (noneCopied && copyLen == 0) buffered'
        (region ++ next.1, next.2.1, next.2.2)

/-- Player states (`audio_player.h`, `AudioPlayer::State`). -/
inductive PState
  | STOPPED
  | PLAYING
  | PAUSED
deriving DecidableEq, Repr

/-- The fields of `AudioPlayer` that its operations read and write.
`devicePaused` is the `SDL_PauseAudioDevice` mute state (`true` = muted);
`hasDecoder` and `hasSwr` model the null-ness of the corresponding pointers. -/
structure PlayerState where
  playerState : PState
  audioQueue : List Chunk
  currentPosition : ℚ
  devicePaused : Bool
  isPlaying : Bool
  isPaused : Bool
  volume : Int
  underrun : Bool
  bufferedSize : Nat
  isDecodingThreadRunning : Bool
  hasSwr : Bool
  hasDecoder : Bool
  decoder : DecoderState
deriving DecidableEq, Repr

/-- Embedding of `AudioPlayer::setVolume` (`src/unnamed/part_003`,
lines 163-165): `volume = std::clamp(vol, 0, SDL_MIX_MAXVOLUME)`. -/
def setVolume (p : PlayerState) (vol : Int) : PlayerState :=
  { p with volume := max 0 (min vol 128) }

/-- Embedding of `AudioPlayer::stop` (`src/unnamed/part_003`, lines 104-136):
from a non-`STOPPED` state it stops and joins the decoding thread, mutes the
device, stops the decoder, frees the resampler, swaps the playback queue with
an empty one and resets state and position; from `STOPPED` it does nothing.
The decoder's frame queue is only touched through `AudioDecoder::stop`, which
does not flush it. -/
def stop (p : PlayerState) : PlayerState :=
  if p.playerState ≠ PState.STOPPED then
    { p with
      isDecodingThreadRunning := false
      devicePaused := true
      decoder := if p.hasDecoder then decoderStop p.decoder else p.decoder
      hasSwr := false
      audioQueue := []
      playerState := PState.STOPPED
      isPlaying := false
      isPaused := false
      currentPosition := 0 }
  else p

/-- Embedding of `AudioPlayer::seek` (`src/unnamed/part_003`, lines 138-161):
returns unchanged without a decoder; otherwise mutes the device, swaps the
playback queue with an empty one, performs the decoder seek (spec-modelled
`decoderSeek`, which flushes the frame queue and reports `ok`), sets the
position to the target only on success, and unmutes the device only when the
player state is `PLAYING`. -/
def seek (p : PlayerState) (seconds : ℚ) (ok : Bool) : PlayerState :=
  if p.hasDecoder = false then p
  else
    let p1 := { p with devicePaused := true, audioQueue := [] }
    let r := decoderSeek ok p1.decoder
    let p2 := { p1 with
      decoder := r.1
      currentPosition := if r.2 then seconds else p1.currentPosition }
    if p2.playerState = PState.PLAYING then { p2 with devicePaused := false }
    else p2

/-- Embedding of `AudioPlayer::fillAudioBuffer` (`src/unnamed/part_003`,
lines 357-401): the output starts as `len` zero bytes (`SDL_memset`); an empty
queue sets the `underrun` flag and returns the silence; otherwise the copy
loop runs and the flag is cleared at the end.  The low-water notification has
no effect on this state. -/
def fillAudioBuffer (p : PlayerState) (len : Nat) : List Nat × PlayerState :=
  if p.audioQueue.isEmpty then
    (List.replicate len 0, { p with underrun := true })
  else
    let r := fillLoop p.volume p.underrun p.audioQueue len true p.bufferedSize
    (r.1, { p with
      audioQueue := r.2.1
      bufferedSize := r.2.2
      underrun := false })

/-- Embedding of `AudioPlayer::pushAudioData` (`src/unnamed/part_003`,
lines 410-434): rejects when not playing or the chunk is empty (`size <= 0`);
with a full queue the call waits on `dataCondition` for `size < MAX_QUEUE_SIZE
|| !isPlaying` (so, observed full and still playing, it is blocked: `none`);
otherwise the chunk is appended. -/
def pushAudioData (isPlaying : Bool) (chunk : Chunk) (q : List Chunk) :
    Option (List Chunk × Bool) :=
  if !isPlaying || chunk.length = 0 then some (q, false)
  else if MAX_QUEUE_SIZE ≤ q.length then none
  else some (q ++ [chunk], true)

/-- Embedding of the enqueue step of `AudioPlayer::processDecodedFrame`
(`src/unnamed/part_003`, lines 282-302): with a full queue it waits for
`size < MAX_QUEUE_SIZE || !isDecodingThreadRunning` and gives up (dropping the
chunk) when the decoding thread was stopped; otherwise the converted chunk is
appended. -/
def pushConverted (running : Bool) (chunk : Chunk) (q : List Chunk) :
    Option (List Chunk × Bool) :=
  if MAX_QUEUE_SIZE ≤ q.length then
    if running then none else some (q, false)
  else some (q ++ [chunk], true)

/-! Section: decode loop and end-of-stream handling (`src/unnamed/part_000`) -/

/-- An encoded packet as `av_read_frame` delivers it: its stream index and the
frames the codec will eventually produce from it. -/
structure AVPacket where
  streamIndex : Int
  frames : List AVFrame
deriving DecidableEq, Repr

/-- The libav codec's internal buffer: frames decoded but not yet emitted.
`flushSent` records that the flush packet (`avcodec_send_packet(ctx, nullptr)`)
has been sent, after which the codec drains its buffer unconditionally. -/
structure CodecState where
  buf : List AVFrame
  flushSent : Bool
deriving DecidableEq, Repr

/-- Sending a data packet hands its frames to the codec's internal buffer. -/
def avcodecSendPacket (c : CodecState) (frames : List AVFrame) : CodecState :=
  { c with buf := c.buf ++ frames }

/-- Sending the null packet puts the codec into draining mode. -/
def avcodecSendFlushPacket (c : CodecState) : CodecState :=
  { c with flushSent := true }

/-- One `avcodec_receive_frame` call against a codec with `delay` frames of
lookahead: before draining the codec withholds its last `delay` buffered
frames and answers EAGAIN (`none`); after the flush packet it emits everything
left. -/
def avcodecReceiveFrame (delay : Nat) (c : CodecState) :
    CodecState × Option AVFrame :=
  match c.buf with
  | [] => (c, none)
  | f :: rest =>
    if c.flushSent || delay < c.buf.length then ({ c with buf := rest }, some f)
    else (c, none)

/-- The inner `while (true) { avcodec_receive_frame ... }` loop of
`AudioDecoder::decodeLoop`: receive until EAGAIN/EOF, collecting the emitted
frames.  `fuel` bounds the iterations; `c.buf.length` always suffices because
every successful receive removes one buffered frame. -/
def recvFrames (delay : Nat) : Nat → CodecState → CodecState × List AVFrame
  | 0, c => (c, [])
  | fuel + 1, c =>
    match avcodecReceiveFrame delay c with
    | (c', some f) =>
      let r := recvFrames delay fuel c'
      (r.1, f :: r.2)
    | (_, none) => (c, [])

/-- Embedding of `AudioDecoder::decodeLoop` (`src/unnamed/part_000`,
lines 172-235).  For each audio packet the loop sends it and receives frames
until EAGAIN, pushing each clone into the frame queue (collected in `out`).
When `av_read_frame` reports end of stream the loop sends the flush packet and
then immediately `break`s: no `avcodec_receive_frame` follows the flush, so
whatever the codec still buffers is never emitted. -/
def decodeLoop (delay : Nat) (audioStreamIndex : Int) :
    List AVPacket → CodecState → List AVFrame → List AVFrame × CodecState
  | [], c, out => (out, avcodecSendFlushPacket c)
  | p :: rest, c, out =>
    if p.streamIndex = audioStreamIndex then
      let c1 := avcodecSendPacket c p.frames
      let r := recvFrames delay c1.buf.length c1
      decodeLoop delay audioStreamIndex rest r.1 (out ++ r.2)
    else decodeLoop delay audioStreamIndex rest c out

/-- Modelled from the spec: section 4.1 states that end-of-stream is signalled
by draining the decoder's internal buffer (a flush packet) before reporting
Eof, i.e. the frames the codec still holds are emitted.  This variant differs
from `decodeLoop` only at end of stream, where it receives the drained frames
after sending the flush packet. -/
def decodeLoopSpec (delay : Nat) (audioStreamIndex : Int) :
    List AVPacket → CodecState → List AVFrame → List AVFrame × CodecState
  | [], c, out =>
    let c1 := avcodecSendFlushPacket c
    let r := recvFrames delay c1.buf.length c1
    (out ++ r.2, r.1)
  | p :: rest, c, out =>
    if p.streamIndex = audioStreamIndex then
      let c1 := avcodecSendPacket c p.frames
      let r := recvFrames delay c1.buf.length c1
      decodeLoopSpec delay audioStreamIndex rest r.1 (out ++ r.2)
    else decodeLoopSpec delay audioStreamIndex rest c out

/-! Section: planar-frame interleaving (`src/src/audio_player.cpp`) -/

/-- Embedding of the buffer construction of `AudioPlayer::processDecodedFrame`
(`src/src/audio_player.cpp`, lines 182-203).  `s` is `frame->nb_samples`, `c`
the channel count, `b` the bytes per sample and `data ch k` byte `k` of plane
`frame->data[ch]`.  For planar formats the nested loops copy `b` bytes per
(sample, channel) pair, advancing the destination each time; for packed
formats the first `totalBytes = s * b * c` bytes of plane 0 are copied. -/
def processDecodedFrameBuffer (s c b : Nat) (planar : Bool)
    (data : Nat → Nat → Nat) : List Nat :=
  if planar then
    (List.range s).flatMap fun i =>
      (List.range c).flatMap fun ch =>
        (List.range b).map fun j => data ch (i * b + j)
  else
    (List.range (s * b * c)).map fun k => data 0 k

/-! Section: queue reachability (sequences of completed push/pop operations) -/

/-- Frame-queue contents reachable from empty by completed `pushFrame` and
`getAudioFrame` calls. -/
inductive FrameQueueReach (cfg : AudioDecoderConfig) : List AVFrame → Prop
  | init : FrameQueueReach cfg []
  | push (q q' : List AVFrame) (d b : Bool) (f : AVFrame) :
      FrameQueueReach cfg q → pushFrame cfg d f q = some (q', b) →
      FrameQueueReach cfg q'
  | pop (q q' : List AVFrame) (tm : Int) (d e : Bool) (r : Option AVFrame) :
      FrameQueueReach cfg q → getAudioFrame tm d e q = some (q', r) →
      FrameQueueReach cfg q'

/-- Playback-queue contents reachable from empty by completed `pushAudioData`
and `processDecodedFrame` enqueues and by callback fills. -/
inductive AudioQueueReach : List Chunk → Prop
  | init : AudioQueueReach []
  | pushA (q q' : List Chunk) (ip b : Bool) (ch : Chunk) :
      AudioQueueReach q → pushAudioData ip ch q = some (q', b) →
      AudioQueueReach q'
  | pushC (q q' : List Chunk) (r b : Bool) (ch : Chunk) :
      AudioQueueReach q → pushConverted r ch q = some (q', b) →
      AudioQueueReach q'
  | fill (q : List Chunk) (v : Int) (u nc : Bool) (len buffered : Nat) :
      AudioQueueReach q →
      AudioQueueReach (fillLoop v u q len nc buffered).2.1

/-! Section: concrete states used by witnesses and counterexamples -/

/-- A freshly constructed player: `STOPPED`, empty queues, position 0,
full volume, decoder allocated. -/
def basePlayer : PlayerState where
  playerState := PState.STOPPED
  audioQueue := []
  currentPosition := 0
  devicePaused := true
  isPlaying := false
  isPaused := false
  volume := 128
  underrun := false
  bufferedSize := 0
  isDecodingThreadRunning := false
  hasSwr := false
  hasDecoder := true
  decoder := ⟨[], false⟩

/-- A playing player with data in both queues, for exercising `seek`. -/
def seekPlayer : PlayerState :=
  { basePlayer with
    playerState := PState.PLAYING
    isPlaying := true
    isDecodingThreadRunning := true
    devicePaused := false
    hasSwr := true
    audioQueue := [[1, 2], [3]]
    currentPosition := 2
    decoder := ⟨[4, 5], true⟩ }

/-- A playing player whose decoder frame queue still holds a frame, for
exercising `stop`. -/
def stopPlayer : PlayerState :=
  { basePlayer with
    playerState := PState.PLAYING
    isPlaying := true
    isDecodingThreadRunning := true
    devicePaused := false
    hasSwr := true
    decoder := ⟨[7], true⟩ }

/-- A player that saw an underrun on the previous callback and then had
`setVolume(0)` applied, with one queued chunk. -/
def underrunZeroVol : PlayerState :=
  setVolume { basePlayer with audioQueue := [[200, 200]], underrun := true } 0

/-- A player with one queued chunk and the underrun flag set, for exercising
the recovery callback. -/
def recoverPlayer : PlayerState :=
  { basePlayer with audioQueue := [[8, 8, 8, 8]], underrun := true }

end Texas

namespace Texas

/-! Section: helper lemmas -/

/-- Stopping the decoder does not touch its frame queue. -/
theorem decoderStop_frameQueue (d : DecoderState) :
    (decoderStop d).frameQueue = d.frameQueue := by
  unfold decoderStop; split <;> rfl

/-- A completed `pushFrame` either leaves the queue alone or appends to a
queue observed strictly below capacity. -/
theorem pushFrame_cases {cfg : AudioDecoderConfig} {d b : Bool} {f : AVFrame}
    {q q' : List AVFrame} (h : pushFrame cfg d f q = some (q', b)) :
    q' = q ∨ (q.length < cfg.maxQueueSize ∧ q' = q ++ [f]) := by
  unfold pushFrame at h
  split_ifs at h <;> simp_all

/-- A completed `getAudioFrame` never grows the queue. -/
theorem getAudioFrame_shrink {tm : Int} {d e : Bool} {q q' : List AVFrame}
    {r : Option AVFrame} (h : getAudioFrame tm d e q = some (q', r)) :
    q'.length ≤ q.length := by
  unfold getAudioFrame at h
  rcases q with _ | ⟨x, xs⟩ <;> split_ifs at h <;> simp_all

/-- A completed `pushAudioData` either leaves the queue alone or appends to a
queue observed strictly below capacity. -/
theorem pushAudioData_cases {ip b : Bool} {ch : Chunk} {q q' : List Chunk}
    (h : pushAudioData ip ch q = some (q', b)) :
    q' = q ∨ (q.length < MAX_QUEUE_SIZE ∧ q' = q ++ [ch]) := by
  unfold pushAudioData at h
  split_ifs at h <;> simp_all

/-- A completed `processDecodedFrame` enqueue either leaves the queue alone or
appends to a queue observed strictly below capacity. -/
theorem pushConverted_cases {r b : Bool} {ch : Chunk} {q q' : List Chunk}
    (h : pushConverted r ch q = some (q', b)) :
    q' = q ∨ (q.length < MAX_QUEUE_SIZE ∧ q' = q ++ [ch]) := by
  unfold pushConverted at h
  split_ifs at h <;> simp_all

/-- The callback's copy loop never grows the playback queue. -/
theorem fillLoop_queue_length (v : Int) (u : Bool) :
    ∀ (q : List Chunk) (len : Nat) (nc : Bool) (buffered : Nat),
      (fillLoop v u q len nc buffered).2.1.length ≤ q.length := by
  intro q
  induction q with
  | nil => intro len nc buffered; simp [fillLoop]
  | cons data rest ih =>
    intro len nc buffered
    simp only [fillLoop]
    split_ifs <;> dsimp only <;>
      first
        | exact Nat.le_succ_of_le (ih _ _ _)
        | simp

end Texas

namespace Texas

/-! Section: claim theorems -/

/-- Claim C6: with `dropFramesWhenFull = true` and the frame queue at capacity,
`AudioDecoder::pushFrame` completes immediately (it does not block), returns
`false`, and drops the new frame instead of inserting it, leaving the queue —
and hence its size — unchanged. -/
theorem pushFrame_drop_policy (cfg : AudioDecoderConfig) (d : Bool)
    (f : AVFrame) (q : List AVFrame)
    (hdrop : cfg.dropFramesWhenFull = true)
    (hfull : cfg.maxQueueSize ≤ q.length) :
    pushFrame cfg d f q = some (q, false) := by
  simp [pushFrame, hdrop, hfull]

/-- Witness for `pushFrame_drop_policy`: a capacity-1 drop-configured queue
holding one frame rejects a push without change. -/
theorem pushFrame_drop_policy_witness :
    (⟨1, 10, true⟩ : AudioDecoderConfig).dropFramesWhenFull = true ∧
    (⟨1, 10, true⟩ : AudioDecoderConfig).maxQueueSize ≤
      ([5] : List AVFrame).length ∧
    pushFrame ⟨1, 10, true⟩ true 9 [5] = some ([5], false) :=
  ⟨rfl, by decide, pushFrame_drop_policy ⟨1, 10, true⟩ true 9 [5] rfl (by decide)⟩

/-- Claim C7: completion semantics of `AudioDecoder::getAudioFrame`.  Once shutdown
is requested (`isDecoding = false`) no call is blocked; with `timeout_ms < 0`
the call is blocked exactly while the queue is empty and decoding continues,
and on completion it returns empty (`none` as the popped frame) precisely when
the queue is empty at wake-up; with `timeout_ms ≥ 0` an expired wait always
completes, returning empty on an empty queue; a non-empty queue always yields
its front frame. -/
theorem getAudioFrame_wait_semantics (tm : Int) (d e : Bool)
    (q : List AVFrame) :
    (d = false → getAudioFrame tm d e q ≠ none) ∧
    (tm < 0 → (getAudioFrame tm d e q = none ↔ q = [] ∧ d = true)) ∧
    (0 ≤ tm → e = true → getAudioFrame tm d e q ≠ none) ∧
    (0 ≤ tm → e = true → q = [] → getAudioFrame tm d e q = some ([], none)) ∧
    (∀ q' r, getAudioFrame tm d e q = some (q', r) → (r = none ↔ q = [])) ∧
    (∀ f fs, q = f :: fs → getAudioFrame tm d e q = some (fs, some f)) := by
  rcases q with _ | ⟨f, fs⟩ <;> by_cases htm : tm < 0 <;> cases d <;> cases e <;>
    simp_all [getAudioFrame, le_of_not_lt]

/-- Witness for `getAudioFrame_wait_semantics`: concrete completions — after
shutdown an indefinite-timeout pop on an empty queue completes and reports
empty, an expired 100 ms pop on an empty queue completes and reports empty,
and a pop from a one-frame queue pops that frame. -/
theorem getAudioFrame_wait_semantics_witness :
    getAudioFrame (-1) false false [] ≠ none ∧
    getAudioFrame 100 true true [] = some ([], none) ∧
    getAudioFrame 100 true false [3] = some ([], some 3) :=
  ⟨(getAudioFrame_wait_semantics (-1) false false []).1 rfl,
   (getAudioFrame_wait_semantics 100 true true []).2.2.2.1 (by decide) rfl rfl,
   (getAudioFrame_wait_semantics 100 true false [3]).2.2.2.2.2 3 [] rfl⟩

/-- Claim C9: `AudioPlayer::updateBufferSize` with no interference terminates after
one compare-and-swap and stores `v + delta` modulo `2 ^ 64`; under any finite
interference trace it terminates and its effect equals a single atomic
fetch-add of `delta` executed at some value `w` the counter actually held (its
linearisation point), for every positive or negative `delta`. -/
theorem updateBufferSize_fetchAdd (delta : Int) (v : Nat) (trace : List Nat) :
    updateBufferSize delta v [] = fetchAdd v delta ∧
    ∃ w, w ∈ v :: trace ∧ updateBufferSize delta v trace = fetchAdd w delta := by
  refine ⟨rfl, ?_⟩
  induction trace generalizing v with
  | nil => exact ⟨v, by simp, rfl⟩
  | cons a rest ih =>
    by_cases h : a = v
    · exact ⟨v, by simp, by simp [updateBufferSize, h]; rfl⟩
    · obtain ⟨w, hw, he⟩ := ih a
      refine ⟨w, ?_, by simp [updateBufferSize, h, he]⟩
      rcases List.mem_cons.mp hw with h1 | h1 <;> simp [h1]

end Texas

namespace Texas

/-- Claim C1: `AudioPlayer::seek` called with a decoder present while the player is
`PLAYING` or `PAUSED` leaves both the playback queue and the decoder frame
queue empty; if the decoder reports success the position equals the target,
and on failure the position is unchanged while the queues remain empty; the
device mute state afterwards is muted exactly for `PAUSED`, so it equals the
pre-seek mute state whenever that state matched the `PLAYING`/`PAUSED` value.
The decoder-side reposition-and-flush is the spec-modelled `decoderSeek`. -/
theorem seek_flush_position_mute (p : PlayerState) (t : ℚ) (ok : Bool)
    (hdec : p.hasDecoder = true)
    (hst : p.playerState = PState.PLAYING ∨ p.playerState = PState.PAUSED) :
    (seek p t ok).audioQueue = [] ∧
    (seek p t ok).decoder.frameQueue = [] ∧
    (ok = true → (seek p t ok).currentPosition = t) ∧
    (ok = false → (seek p t ok).currentPosition = p.currentPosition) ∧
    (seek p t ok).devicePaused = decide (p.playerState = PState.PAUSED) ∧
    (p.devicePaused = decide (p.playerState = PState.PAUSED) →
      (seek p t ok).devicePaused = p.devicePaused) := by
  rcases hst with h | h <;> cases ok <;>
    simp [seek, decoderSeek, decoderFlush, hdec, h]

/-- Witness for `seek_flush_position_mute`: seeking to 5 s on a playing player
with both queues non-empty empties them, moves the position to 5, and leaves
the device unmuted. -/
theorem seek_flush_position_mute_witness :
    (seek seekPlayer 5 true).audioQueue = [] ∧
    (seek seekPlayer 5 true).decoder.frameQueue = [] ∧
    (seek seekPlayer 5 true).currentPosition = 5 ∧
    (seek seekPlayer 5 true).devicePaused = seekPlayer.devicePaused :=
  ⟨(seek_flush_position_mute seekPlayer 5 true rfl (Or.inl rfl)).1,
   (seek_flush_position_mute seekPlayer 5 true rfl (Or.inl rfl)).2.1,
   (seek_flush_position_mute seekPlayer 5 true rfl (Or.inl rfl)).2.2.1 rfl,
   (seek_flush_position_mute seekPlayer 5 true rfl (Or.inl rfl)).2.2.2.2.2
     (by decide)⟩

/-- Counterexample to C2 as stated: from a `PLAYING` player whose decoder
frame queue holds a frame, `AudioPlayer::stop` reaches `STOPPED` but leaves
that frame queued — `AudioDecoder::stop` only stops and joins the decode
thread and never flushes the frame queue, so stop does not leave both queues
empty. -/
theorem stop_frame_queue_counterexample :
    stopPlayer.playerState = PState.PLAYING ∧
    (stop stopPlayer).playerState = PState.STOPPED ∧
    (stop stopPlayer).decoder.frameQueue ≠ [] := by
  refine ⟨rfl, ?_, ?_⟩ <;> simp [stop, stopPlayer, basePlayer, decoderStop]

/-- Every `stop` result is in the `STOPPED` state. -/
theorem stop_playerState (p : PlayerState) :
    (stop p).playerState = PState.STOPPED := by
  by_cases h : p.playerState = PState.STOPPED
  · simp [stop, h]
  · simp [stop, h]

/-- On an already-stopped player, `stop` is the identity. -/
theorem stop_of_stopped (p : PlayerState)
    (h : p.playerState = PState.STOPPED) : stop p = p := by
  simp [stop, h]

/-- C2 (amended): `AudioPlayer::stop` from a non-`STOPPED` state leaves the
player `STOPPED` with an empty playback queue and position 0, but does not
flush the decoder frame queue (it is left exactly as it was); a second call —
and any call on an already-`STOPPED` player — changes nothing. -/
theorem stop_amended (p : PlayerState) :
    (p.playerState ≠ PState.STOPPED →
      (stop p).playerState = PState.STOPPED ∧
      (stop p).audioQueue = [] ∧
      (stop p).currentPosition = 0 ∧
      (stop p).decoder.frameQueue = p.decoder.frameQueue) ∧
    stop (stop p) = stop p := by
  constructor
  · intro h
    refine ⟨stop_playerState p, ?_, ?_, ?_⟩
    · simp [stop, h]
    · simp [stop, h]
    · simp only [stop, if_pos h]
      split <;> simp [decoderStop_frameQueue]
  · exact stop_of_stopped (stop p) (stop_playerState p)

/-- Witness for `stop_amended`: stopping the playing `stopPlayer` reaches
`STOPPED` with empty playback queue and position 0, and a second stop is a
no-op. -/
theorem stop_amended_witness :
    (stop stopPlayer).playerState = PState.STOPPED ∧
    (stop stopPlayer).audioQueue = [] ∧
    (stop stopPlayer).currentPosition = 0 ∧
    stop (stop stopPlayer) = stop stopPlayer :=
  ⟨((stop_amended stopPlayer).1 (by decide)).1,
   ((stop_amended stopPlayer).1 (by decide)).2.1,
   ((stop_amended stopPlayer).1 (by decide)).2.2.1,
   (stop_amended stopPlayer).2⟩

end Texas

namespace Texas

/-- Claim C3: for every sequence of completed push and pop operations on either
bounded queue — `pushFrame`/`getAudioFrame` on the decoder frame queue with
capacity `config.maxQueueSize`, and `pushAudioData`/the conversion-stage
enqueue/the callback's consuming loop on the playback queue with capacity
`MAX_QUEUE_SIZE = 50` — the queue size stays at most the capacity at every
observation point outside an in-progress push/pop critical section. -/
theorem queue_size_le_capacity :
    (∀ (cfg : AudioDecoderConfig) (q : List AVFrame),
      FrameQueueReach cfg q → q.length ≤ cfg.maxQueueSize) ∧
    (∀ q : List Chunk, AudioQueueReach q → q.length ≤ MAX_QUEUE_SIZE) := by
  constructor
  · intro cfg q h
    induction h with
    | init => simp
    | push q q' d b f hq hp ih =>
      rcases pushFrame_cases hp with h1 | ⟨h1, h2⟩
      · subst h1; exact ih
      · subst h2; simp; omega
    | pop q q' tm d e r hq hp ih =>
      exact le_trans (getAudioFrame_shrink hp) ih
  · intro q h
    induction h with
    | init => simp
    | pushA q q' ip b ch hq hp ih =>
      rcases pushAudioData_cases hp with h1 | ⟨h1, h2⟩
      · subst h1; exact ih
      · subst h2; simp; omega
    | pushC q q' r b ch hq hp ih =>
      rcases pushConverted_cases hp with h1 | ⟨h1, h2⟩
      · subst h1; exact ih
      · subst h2; simp; omega
    | fill q v u nc len buffered hq ih =>
      exact le_trans (fillLoop_queue_length v u q len nc buffered) ih

/-- Witness for `queue_size_le_capacity`: a frame queue reached by one push
into a capacity-2 blocking configuration, and a playback queue reached by one
`pushAudioData`, both respect their bounds. -/
theorem queue_size_le_capacity_witness :
    ([3] : List AVFrame).length ≤
      (⟨2, 10, false⟩ : AudioDecoderConfig).maxQueueSize ∧
    ([[5]] : List Chunk).length ≤ MAX_QUEUE_SIZE :=
  ⟨queue_size_le_capacity.1 ⟨2, 10, false⟩ [3]
      (FrameQueueReach.push [] [3] true true 3 FrameQueueReach.init (by decide)),
   queue_size_le_capacity.2 [[5]]
      (AudioQueueReach.pushA [] [[5]] true true [5] AudioQueueReach.init
        (by decide))⟩

end Texas

namespace Texas

/-- The fade ramp has one byte per copied byte. -/
theorem fadeRegion_length (data : List Nat) (n : Nat) :
    (fadeRegion data n).length = n := by
  simp [fadeRegion]

/-- The fade ramp starts at silence: its first byte is zero. -/
theorem fadeRegion_head (data : List Nat) (n : Nat) (h : 0 < n) :
    (fadeRegion data n).getD 0 0 = 0 := by
  cases n with
  | zero => omega
  | succ m => simp [fadeRegion, List.range_succ_eq_map]

/-- Clipping silence is silence. -/
theorem clampS16_zero : clampS16 0 = 0 := by decide

/-- Silence encodes as two zero bytes. -/
theorem encode16_zero : encode16 0 = [0, 0] := by decide

/-- Flat-mapping a constant two-zero-byte block over `range k` yields `2 * k`
zero bytes. -/
theorem flatMap_pair_zero (k : Nat) :
    ((List.range k).flatMap fun _ => ([0, 0] : List Nat)) =
      List.replicate (2 * k) 0 := by
  induction k with
  | zero => rfl
  | succ n ih =>
    rw [List.range_succ, List.flatMap_append, ih,
      show 2 * (n + 1) = 2 * n + 2 by ring, List.replicate_add]
    simp

/-- Mixing at volume zero produces pure silence. -/
theorem mixRegion_zero (data : List Nat) (n : Nat) :
    mixRegion data 0 n = List.replicate n 0 := by
  unfold mixRegion
  simp only [mul_zero, Int.zero_tdiv, clampS16_zero, encode16_zero]
  rw [flatMap_pair_zero]
  by_cases h : n % 2 = 1
  · rw [if_pos h, show (([0] : List Nat)) = List.replicate 1 0 from rfl,
      ← List.replicate_add]
    congr 1
    omega
  · rw [if_neg h]
    simp only [List.append_nil]
    congr 1
    omega

/-- At volume zero with the underrun flag clear, the copy loop writes only
zero bytes. -/
theorem fillLoop_volume_zero_output :
    ∀ (q : List Chunk) (len : Nat) (nc : Bool) (buffered : Nat),
      (fillLoop 0 false q len nc buffered).1 = List.replicate len 0 := by
  intro q
  induction q with
  | nil => intro len nc buffered; simp [fillLoop]
  | cons data rest ih =>
    intro len nc buffered
    simp only [fillLoop, Bool.false_and, Bool.false_eq_true, if_false]
    split_ifs with h0 hpart
    · simp [h0]
    · dsimp only
      rw [mixRegion_zero]
      congr 1
      omega
    · dsimp only
      rw [mixRegion_zero, ih, ← List.replicate_add]
      congr 1
      omega

/-- The resulting queue of the copy loop does not depend on the volume, the
underrun flag or the buffered-size counter. -/
theorem fillLoop_queue_indep (v1 v2 : Int) (u1 u2 : Bool) :
    ∀ (q : List Chunk) (len : Nat) (nc : Bool) (b1 b2 : Nat),
      (fillLoop v1 u1 q len nc b1).2.1 = (fillLoop v2 u2 q len nc b2).2.1 := by
  intro q
  induction q with
  | nil => intro len nc b1 b2; simp [fillLoop]
  | cons data rest ih =>
    intro len nc b1 b2
    by_cases hl : len = 0
    · simp [fillLoop, hl]
    · by_cases hp : min len data.length < data.length
      · simp [fillLoop, hl, hp]
      · simp only [fillLoop, if_neg hl]
        split_ifs <;> dsimp only <;> exact ih _ _ _ _

end Texas

namespace Texas

/-- With the underrun flag set and nothing copied yet, the copy loop's first
output byte is zero: the recovery output is continuous with silence. -/
theorem fillLoop_fade_head (v : Int) :
    ∀ (q : List Chunk) (len buffered : Nat), 0 < len →
      (fillLoop v true q len true buffered).1.getD 0 0 = 0 := by
  intro q
  induction q with
  | nil =>
    intro len buffered h
    cases len with
    | zero => omega
    | succ m => simp [fillLoop, List.replicate_succ]
  | cons data rest ih =>
    intro len buffered h
    simp only [fillLoop, Bool.true_and]
    rw [if_neg (by omega : ¬len = 0)]
    split_ifs with hpart
    · dsimp only
      exact fadeRegion_head data _ (by omega)
    · dsimp only
      by_cases hc : min len data.length = 0
      · rw [hc]
        have : fadeRegion data 0 = [] := by simp [fadeRegion]
        rw [this, List.nil_append]
        exact ih _ _ (by omega)
      · have hlen : 0 < (fadeRegion data (min len data.length)).length := by
          rw [fadeRegion_length]; omega
        rcases List.exists_cons_of_ne_nil (List.ne_nil_of_length_pos hlen)
          with ⟨a, l, hal⟩
        have ha : a = 0 := by
          have := fadeRegion_head data (min len data.length) (by omega)
          rw [hal] at this
          simpa using this
        rw [hal, ha]
        rfl

/-- Claim C4: when `AudioPlayer::fillAudioBuffer` fires on an empty playback queue
it sets the `underrun` flag and the entire output is the faded-to-silence
buffer (all zero bytes — no partial data is available to fade); any
subsequent callback that finds data in the queue clears the flag, and its
recovery output starts at silence (first byte zero), the short linear fade
applied to the available data. -/
theorem fill_underrun_flag (p : PlayerState) (len : Nat) :
    (p.audioQueue = [] →
      (fillAudioBuffer p len).1 = List.replicate len 0 ∧
      (fillAudioBuffer p len).2.underrun = true) ∧
    (p.audioQueue ≠ [] → (fillAudioBuffer p len).2.underrun = false) ∧
    (p.underrun = true → p.audioQueue ≠ [] → 0 < len →
      (fillAudioBuffer p len).1.getD 0 0 = 0) := by
  refine ⟨fun h => ?_, fun h => ?_, fun hu h hl => ?_⟩
  · simp [fillAudioBuffer, h]
  · simp [fillAudioBuffer, List.isEmpty_iff, h]
  · rw [fillAudioBuffer, if_neg (by simp [List.isEmpty_iff, h])]
    dsimp only
    rw [hu]
    exact fillLoop_fade_head p.volume p.audioQueue len p.bufferedSize hl

/-- Witness for `fill_underrun_flag`: an empty-queue callback on the fresh
player produces four zero bytes and sets the flag; a callback on
`recoverPlayer` (queued data, flag set) clears the flag and starts its output
at silence. -/
theorem fill_underrun_flag_witness :
    (fillAudioBuffer basePlayer 4).1 = List.replicate 4 0 ∧
    (fillAudioBuffer basePlayer 4).2.underrun = true ∧
    (fillAudioBuffer recoverPlayer 4).2.underrun = false ∧
    (fillAudioBuffer recoverPlayer 4).1.getD 0 0 = 0 :=
  ⟨((fill_underrun_flag basePlayer 4).1 rfl).1,
   ((fill_underrun_flag basePlayer 4).1 rfl).2,
   (fill_underrun_flag recoverPlayer 4).2.1 (by decide),
   (fill_underrun_flag recoverPlayer 4).2.2 rfl (by decide) (by decide)⟩

/-- Counterexample to C5 as stated: with `setVolume(0)` applied and a
non-empty playback queue, but the underrun flag still set from the previous
callback, the fill does not produce an all-zero buffer — the recovery fade
branch writes `data[i] * i / copyLen` and ignores the volume (here byte 1 is
`200 * 1 / 2 = 100`). -/
theorem fill_volume_zero_counterexample :
    underrunZeroVol.volume = 0 ∧
    underrunZeroVol.audioQueue ≠ [] ∧
    (fillAudioBuffer underrunZeroVol 2).1 ≠ List.replicate 2 0 := by
  refine ⟨by decide, by decide, ?_⟩
  decide

end Texas

namespace Texas

/-- C5 (amended): after `setVolume(0)`, a callback fill over a non-empty
playback queue whose underrun flag is clear yields an output buffer of all
zero bytes, and the queue contents consumed are identical to those consumed at
any other volume (the resulting queue does not depend on the volume); when the
underrun flag is set, the recovery fade path ignores the volume and the output
need not be silent. -/
theorem fill_volume_zero_amended (p : PlayerState) (len : Nat)
    (hu : p.underrun = false) (hq : p.audioQueue ≠ []) :
    (fillAudioBuffer (setVolume p 0) len).1 = List.replicate len 0 ∧
    ∀ v : Int,
      (fillAudioBuffer (setVolume p v) len).2.audioQueue =
        (fillAudioBuffer (setVolume p 0) len).2.audioQueue := by
  have hne : (setVolume p 0).audioQueue.isEmpty = false := by
    simp [setVolume, List.isEmpty_iff, hq]
  constructor
  · rw [fillAudioBuffer, if_neg (by simp [hne])]
    dsimp only
    have hv : (setVolume p 0).volume = 0 := by simp [setVolume]
    rw [hv, show (setVolume p 0).underrun = false by simpa [setVolume] using hu,
      show (setVolume p 0).audioQueue = p.audioQueue from rfl]
    exact fillLoop_volume_zero_output p.audioQueue len true p.bufferedSize
  · intro v
    have hnev : (setVolume p v).audioQueue.isEmpty = false := by
      simp [setVolume, List.isEmpty_iff, hq]
    rw [fillAudioBuffer, fillAudioBuffer, if_neg (by simp [hnev]),
      if_neg (by simp [hne])]
    dsimp only
    exact fillLoop_queue_indep _ _ _ _ p.audioQueue len true _ _

/-- Witness for `fill_volume_zero_amended`: on a player with one queued chunk
`[200, 200]` and no pending underrun, a volume-0 fill of two bytes is silent,
and a full-volume fill consumes the same queue contents. -/
theorem fill_volume_zero_amended_witness :
    (fillAudioBuffer (setVolume { basePlayer with
        audioQueue := [[200, 200]] } 0) 2).1 = List.replicate 2 0 ∧
    (fillAudioBuffer (setVolume { basePlayer with
        audioQueue := [[200, 200]] } 128) 2).2.audioQueue =
      (fillAudioBuffer (setVolume { basePlayer with
        audioQueue := [[200, 200]] } 0) 2).2.audioQueue :=
  ⟨(fill_volume_zero_amended { basePlayer with audioQueue := [[200, 200]] } 2
      rfl (by decide)).1,
   (fill_volume_zero_amended { basePlayer with audioQueue := [[200, 200]] } 2
      rfl (by decide)).2 128⟩

end Texas

namespace Texas

/-- Claim C8: at end of stream `AudioDecoder::decodeLoop` sends the flush packet and
then immediately breaks out of the loop without a single
`avcodec_receive_frame`, so a frame the codec still buffers (here frame `7`,
held back by one frame of codec delay) is never emitted; the spec-modelled
drain (`decodeLoopSpec`) emits it.  Evaluated at the failing input: one audio
packet producing one frame, against a codec with one frame of delay. -/
theorem decodeLoop_eof_loses_buffered_frame :
    (decodeLoop 1 0 [⟨0, [7]⟩] ⟨[], false⟩ []).1 = [] ∧
    (decodeLoop 1 0 [⟨0, [7]⟩] ⟨[], false⟩ []).2.buf = [7] ∧
    (decodeLoop 1 0 [⟨0, [7]⟩] ⟨[], false⟩ []).2.flushSent = true ∧
    (decodeLoopSpec 1 0 [⟨0, [7]⟩] ⟨[], false⟩ []).1 = [7] := by
  decide

end Texas

namespace Texas

/-- Concatenating `n` blocks of a common length `L` yields `n * L` elements. -/
theorem flatMap_range_length {α : Type} (f : Nat → List α) (L : Nat)
    (hL : ∀ x, (f x).length = L) :
    ∀ n, ((List.range n).flatMap f).length = n * L := by
  intro n
  induction n with
  | zero => simp
  | succ m ih =>
    rw [List.range_succ, List.flatMap_append, List.length_append, ih]
    simp only [List.flatMap_cons, List.flatMap_nil, List.append_nil, hL m]
    ring

/-- Indexing into a concatenation of `n` equal-length blocks: position
`k * L + r` with `r < L` lands at offset `r` of block `k`. -/
theorem flatMap_range_getElem? {α : Type} (f : Nat → List α) (L : Nat)
    (hL : ∀ x, (f x).length = L) :
    ∀ (n k r : Nat), k < n → r < L →
      ((List.range n).flatMap f)[k * L + r]? = (f k)[r]? := by
  intro n
  induction n with
  | zero => intro k r hk hr; omega
  | succ m ih =>
    intro k r hk hr
    rw [List.range_succ, List.flatMap_append, List.getElem?_append,
      flatMap_range_length f L hL]
    by_cases hkm : k < m
    · have h1 : k * L + r < (k + 1) * L := by rw [add_mul, one_mul]; omega
      have h2 : (k + 1) * L ≤ m * L := Nat.mul_le_mul_right L hkm
      rw [if_pos (by omega)]
      exact ih k r hkm hr
    · have hk' : k = m := by omega
      subst hk'
      rw [if_neg (by omega)]
      have h3 : k * L + r - k * L = r := by omega
      rw [h3]
      simp

/-- Claim C10: the buffer built by `AudioPlayer::processDecodedFrame`
(`src/src/audio_player.cpp`) for a frame of `s` samples, `c` channels and `b`
bytes per sample has exactly `s * c * b` bytes; for a planar source format,
byte `j` of channel `ch` at sample `i` lands at offset `(i*c + ch)*b + j`
(interleaving), and for a packed format the buffer is the first `s * c * b`
bytes of the frame's first data plane. -/
theorem processDecodedFrame_interleaving (s c b : Nat) (planar : Bool)
    (data : Nat → Nat → Nat) :
    (processDecodedFrameBuffer s c b planar data).length = s * c * b ∧
    (planar = true → ∀ i ch j, i < s → ch < c → j < b →
      (processDecodedFrameBuffer s c b planar data)[(i * c + ch) * b + j]? =
        some (data ch (i * b + j))) ∧
    (planar = false →
      processDecodedFrameBuffer s c b planar data =
        (List.range (s * c * b)).map fun k => data 0 k) := by
  have hinner : ∀ i,
      ((List.range c).flatMap fun ch =>
        (List.range b).map fun j => data ch (i * b + j)).length = c * b :=
    fun i => flatMap_range_length _ b (fun ch => by simp) c
  refine ⟨?_, fun hp i ch j hi hch hj => ?_, fun hp => ?_⟩
  · by_cases hp : planar = true
    · rw [processDecodedFrameBuffer, if_pos (by simp [hp]),
        flatMap_range_length _ (c * b) hinner s]
      ring
    · rw [processDecodedFrameBuffer,
        if_neg (by simp_all), List.length_map, List.length_range]
      ring
  · rw [processDecodedFrameBuffer, if_pos (by simp [hp])]
    have harith : (i * c + ch) * b + j = i * (c * b) + (ch * b + j) := by ring
    have hbound : ch * b + j < c * b := by
      have h1 : ch * b + j < (ch + 1) * b := by rw [add_mul, one_mul]; omega
      have h2 : (ch + 1) * b ≤ c * b := Nat.mul_le_mul_right b hch
      omega
    rw [harith, flatMap_range_getElem? _ (c * b) hinner s i (ch * b + j) hi
        hbound,
      flatMap_range_getElem? _ b (fun ch => by simp) c ch j hch hj,
      List.getElem?_map, List.getElem?_range hj]
    rfl
  · rw [processDecodedFrameBuffer, if_neg (by simp_all),
      show s * b * c = s * c * b by ring]

/-- Witness for `processDecodedFrame_interleaving`: in a 2-sample, 2-channel,
2-bytes-per-sample planar frame with `data ch k = 10 * ch + k`, the byte at
interleaved offset `(1*2 + 1)*2 + 1 = 7` is byte `3` of channel 1, value 13. -/
theorem processDecodedFrame_interleaving_witness :
    (processDecodedFrameBuffer 2 2 2 true
        fun ch k => 10 * ch + k)[(1 * 2 + 1) * 2 + 1]? = some 13 :=
  (processDecodedFrame_interleaving 2 2 2 true
    (fun ch k => 10 * ch + k)).2.1 rfl 1 1 1 (by decide) (by decide) (by decide)

end Texas
